import Mathlib

/-!
Shallow embedding of `finproject.py` (incline force simulator) and proofs of
the specification's claims about it. Python floats are modelled by real
numbers; `math.cos`, `math.sin`, `math.sqrt` and `math.radians` are modelled
by `Real.cos`, `Real.sin`, `Real.sqrt` and degree-to-radian conversion.
-/

namespace Incline

/-- Gravity constant from the source: `g = 9.8`. -/
def g : ℝ := 9.8

/-- Screen width, from the source: `WIDTH = 800`. -/
def WIDTH : ℝ := 800

/-- Screen height, from the source: `HEIGHT = 600`. -/
def HEIGHT : ℝ := 600

/-- `self.incline_start = (WIDTH - 100, 100)`. -/
def incline_start : ℝ × ℝ := (WIDTH - 100, 100)

/-- `self.incline_end = (200, HEIGHT - 100)`. -/
def incline_end : ℝ × ℝ := (200, HEIGHT - 100)

/-- `self.slope_x = self.incline_end[0] - self.incline_start[0]`. -/
def slope_x : ℝ := incline_end.1 - incline_start.1

/-- `self.slope_y = self.incline_end[1] - self.incline_start[1]`. -/
def slope_y : ℝ := incline_end.2 - incline_start.2

/-- `self.incline_length = math.sqrt(self.slope_x ** 2 + self.slope_y ** 2)`. -/
noncomputable def incline_length : ℝ := Real.sqrt (slope_x ^ 2 + slope_y ^ 2)

/-- The mutable fields of the Python `Simulator` object. -/
structure SimState where
  mass : ℝ
  angle : ℝ
  friction : ℝ
  progress : ℝ
  velocity : ℝ
  position_x : ℝ
  position_y : ℝ

/-- `math.radians(d)`: degrees to radians. -/
noncomputable def radians (d : ℝ) : ℝ := d * Real.pi / 180

/-- `Simulator.calculate_forces`: returns
`(normal_force, friction_force, parallel_force, acceleration)`. -/
noncomputable def calculate_forces (s : SimState) : ℝ × ℝ × ℝ × ℝ :=
  let angle_rad := radians s.angle
  let weight := s.mass * g
  let normal_force := weight * Real.cos angle_rad
  let parallel_force := weight * Real.sin angle_rad
  let friction_force := s.friction * normal_force
  let net_force := parallel_force - friction_force
  let acceleration := if net_force > 0 then net_force / s.mass else 0
  (normal_force, friction_force, parallel_force, acceleration)

/-- `Simulator.update_position`: one physics step at fixed `dt = 1/60`. -/
noncomputable def update_position (s : SimState) : SimState :=
  if s.progress ≥ 1 then
    { s with velocity := 0 }
  else
    let acceleration := (calculate_forces s).2.2.2
    let velocity := s.velocity + acceleration * (1 / 60)
    let displacement := velocity * (1 / 60)
    let progress_increment := displacement / incline_length
    let progress := min (s.progress + progress_increment) 1
    { s with
      velocity := velocity
      progress := progress
      position_x := incline_start.1 + slope_x * progress
      position_y := incline_start.2 + slope_y * progress }

/-- `Simulator.reset_simulation`: back to the top of the incline at rest. -/
def reset_simulation (s : SimState) : SimState :=
  { s with
    velocity := 0
    progress := 0
    position_x := incline_start.1
    position_y := incline_start.2 }

/-- `Simulator.__init__`: default parameters, then `reset_simulation`. -/
def init : SimState :=
  reset_simulation
    { mass := 10, angle := 30, friction := 0.2, progress := 0,
      velocity := 0, position_x := 0, position_y := 0 }

/-- Python `round(x, 2)`: round to two decimal places. Modelled with
Mathlib's `round`; on the values the program produces (exact multiples of
`0.05`) no tie-breaking occurs, so the convention difference with Python's
round-half-to-even is immaterial. -/
noncomputable def round2 (x : ℝ) : ℝ := ((round (100 * x) : ℤ) : ℝ) / 100

/-- The discrete input events handled in `main`'s event loop: one constructor
per button that a `MOUSEBUTTONDOWN` can hit. -/
inductive Event where
  | massUp
  | massDown
  | angleUp
  | angleDown
  | frictionUp
  | frictionDown
  | resetBtn
  | pauseBtn
  deriving DecidableEq

/-- The state the control loop reads and writes: the `Simulator` object plus
the global `paused` flag. -/
structure LoopState where
  sim : SimState
  paused : Bool

/-- The effect of one event, from the `elif` chain in `main` (lines 268-284). -/
noncomputable def apply_event (e : Event) (st : LoopState) : LoopState :=
  match e with
  | Event.massUp => { st with sim := { st.sim with mass := min (st.sim.mass + 1) 100 } }
  | Event.massDown => { st with sim := { st.sim with mass := max 1 (st.sim.mass - 1) } }
  | Event.angleUp => { st with sim := { st.sim with angle := min 85 (st.sim.angle + 1) } }
  | Event.angleDown => { st with sim := { st.sim with angle := max 0 (st.sim.angle - 1) } }
  | Event.frictionUp =>
      { st with sim := { st.sim with friction := min 1 (round2 (st.sim.friction + 0.05)) } }
  | Event.frictionDown =>
      { st with sim := { st.sim with friction := max 0 (round2 (st.sim.friction - 0.05)) } }
  | Event.resetBtn => { st with sim := reset_simulation st.sim }
  | Event.pauseBtn => { st with paused := !st.paused }

/-- One iteration of the `while running` loop in `main`, restricted to the
state-changing operations (drawing reads the state but does not change it):
first `if not paused: simulator.update_position()`, then the event loop
drains and applies all pending events in order. -/
noncomputable def tick (events : List Event) (st : LoopState) : LoopState :=
  let st1 := if st.paused then st else { st with sim := update_position st.sim }
  events.foldl (fun s e => apply_event e s) st1

/-- The physics phase of a tick: `if not paused: simulator.update_position()`. -/
noncomputable def step_phase (st : LoopState) : LoopState :=
  if st.paused then st else { st with sim := update_position st.sim }

/-- Draining the pending events in order. -/
noncomputable def apply_events (events : List Event) (st : LoopState) : LoopState :=
  events.foldl (fun s e => apply_event e s) st

/-- Modelled from the spec: the per-tick ordering claimed in C4, in which all
pending events are drained and applied BEFORE the physics step of the same
tick. This definition follows the spec's words, to be compared with `tick`,
which is translated from the source. -/
noncomputable def tick_spec_order (events : List Event) (st : LoopState) : LoopState :=
  let st1 := events.foldl (fun s e => apply_event e s) st
  if st1.paused then st1 else { st1 with sim := update_position st1.sim }

/-- The state at program start: `simulator = Simulator()`, `paused = False`. -/
def init_loop : LoopState := { sim := init, paused := false }

/-- The loop state after a sequence of ticks, each with its list of pending
events: every state the program can reach. -/
noncomputable def run_ticks (tss : List (List Event)) : LoopState :=
  tss.foldl (fun s evs => tick evs s) init_loop

/-- The state invariant the program maintains: parameter ranges, nonnegative
velocity, and progress within `[0, 1]`. -/
def SInv (s : SimState) : Prop :=
  1 ≤ s.mass ∧ s.mass ≤ 100 ∧ 0 ≤ s.angle ∧ s.angle ≤ 85 ∧
    0 ≤ s.friction ∧ s.friction ≤ 1 ∧ 0 ≤ s.velocity ∧
    0 ≤ s.progress ∧ s.progress ≤ 1

/-- A frictionless start state: the initial state after four clicks on the
friction-down button. Used as a concrete input whose trigonometry is exact. -/
def fless : SimState :=
  { init with friction := 0 }

/-- A concrete state just short of the bottom of the incline, moving fast. -/
noncomputable def nearBottom : SimState :=
  { init with friction := 0, progress := 99 / 100, velocity := 1000 }

/-- The loop state used to separate the code's tick ordering from the claimed
one: running (not paused), frictionless, at the top of the incline. -/
def c4_state : LoopState :=
  { sim := fless, paused := false }

/-- The acceleration component of `calculate_forces`, written out. -/
theorem calculate_forces_accel (s : SimState) :
    (calculate_forces s).2.2.2 =
      if s.mass * g * Real.sin (radians s.angle) -
           s.friction * (s.mass * g * Real.cos (radians s.angle)) > 0 then
        (s.mass * g * Real.sin (radians s.angle) -
           s.friction * (s.mass * g * Real.cos (radians s.angle))) / s.mass
      else 0 := rfl

/-- The incline endpoints are `(700, 100)` and `(200, 500)`, so the squared
length is `500^2 + 400^2 = 410000`. -/
theorem incline_length_eq : incline_length = Real.sqrt 410000 := by
  unfold incline_length slope_x slope_y incline_start incline_end WIDTH HEIGHT
  norm_num

theorem incline_length_pos : 0 < incline_length := by
  rw [incline_length_eq]
  exact Real.sqrt_pos.mpr (by norm_num)

theorem incline_length_le_1000 : incline_length ≤ 1000 := by
  rw [incline_length_eq]
  calc Real.sqrt 410000 ≤ Real.sqrt (1000 ^ 2) := Real.sqrt_le_sqrt (by norm_num)
    _ = 1000 := Real.sqrt_sq (by norm_num)

/-- The acceleration computed by `calculate_forces` is never negative when
the mass is positive: either the net force is positive and it is a quotient
of positives, or it is literally `0`. -/
theorem accel_nonneg (s : SimState) (hm : 0 < s.mass) :
    0 ≤ (calculate_forces s).2.2.2 := by
  rw [calculate_forces_accel]
  split_ifs with h
  · exact div_nonneg (le_of_lt h) (le_of_lt hm)
  · exact le_refl 0

/-- `update_position` on a state short of the bottom, written out. -/
theorem update_position_of_lt (s : SimState) (h : s.progress < 1) :
    update_position s =
      { s with
        velocity := s.velocity + (calculate_forces s).2.2.2 * (1 / 60)
        progress := min (s.progress +
          (s.velocity + (calculate_forces s).2.2.2 * (1 / 60)) * (1 / 60) / incline_length) 1
        position_x := incline_start.1 + slope_x * min (s.progress +
          (s.velocity + (calculate_forces s).2.2.2 * (1 / 60)) * (1 / 60) / incline_length) 1
        position_y := incline_start.2 + slope_y * min (s.progress +
          (s.velocity + (calculate_forces s).2.2.2 * (1 / 60)) * (1 / 60) / incline_length) 1 } := by
  unfold update_position
  rw [if_neg (not_le.mpr h)]

/-- `update_position` at or past the bottom only zeroes the velocity. -/
theorem update_position_of_ge (s : SimState) (h : 1 ≤ s.progress) :
    update_position s = { s with velocity := 0 } := by
  unfold update_position
  rw [if_pos h]

/-- A physics step never changes the angle parameter. -/
theorem update_position_angle (s : SimState) :
    (update_position s).angle = s.angle := by
  unfold update_position
  split_ifs <;> rfl

theorem radians_30 : radians 30 = Real.pi / 6 := by
  unfold radians
  ring

/-- With `friction = 0`, `angle = 30`, `mass = 10`, the acceleration is
`9.8 * sin (pi/6) = 4.9`. -/
theorem accel_friction_zero (s : SimState) (hf : s.friction = 0)
    (hang : s.angle = 30) (hm : s.mass = 10) :
    (calculate_forces s).2.2.2 = 49 / 10 := by
  rw [calculate_forces_accel, hf, hang, hm, radians_30]
  norm_num [g, Real.sin_pi_div_six]

/-- `round2` fixes every integer multiple of `1/100`. -/
theorem round2_int_div (n : ℤ) : round2 ((n : ℝ) / 100) = (n : ℝ) / 100 := by
  unfold round2
  rw [show (100 : ℝ) * ((n : ℝ) / 100) = (n : ℝ) by ring, round_intCast]

/-- `round2` maps inputs at least `1/200` to nonnegative outputs. -/
theorem round2_nonneg (x : ℝ) (h : 1 / 200 ≤ x) : 0 ≤ round2 x := by
  unfold round2
  have h1 := abs_sub_round (100 * x)
  rw [abs_le] at h1
  have h2 : (0 : ℝ) ≤ ((round (100 * x) : ℤ) : ℝ) := by linarith [h1.2]
  positivity

/-- `round2` maps inputs at most `199/200` to outputs at most `1`. -/
theorem round2_le_one (x : ℝ) (h : x ≤ 199 / 200) : round2 x ≤ 1 := by
  unfold round2
  have h1 := abs_sub_round (100 * x)
  rw [abs_le] at h1
  have h2 : ((round (100 * x) : ℤ) : ℝ) ≤ 100 := by linarith [h1.1]
  linarith

theorem init_sinv : SInv init := by
  unfold SInv init reset_simulation
  norm_num

/-- Every single input event preserves the state invariant. -/
theorem apply_event_sinv (e : Event) (st : LoopState) (h : SInv st.sim) :
    SInv (apply_event e st).sim := by
  obtain ⟨h1, h2, h3, h4, h5, h6, h7, h8, h9⟩ := h
  cases e
  case massUp =>
    exact ⟨le_min (by linarith) (by norm_num), min_le_right _ _,
      h3, h4, h5, h6, h7, h8, h9⟩
  case massDown =>
    exact ⟨le_max_left _ _, max_le (by norm_num) (by linarith),
      h3, h4, h5, h6, h7, h8, h9⟩
  case angleUp =>
    exact ⟨h1, h2, le_min (by norm_num) (by linarith), min_le_left _ _,
      h5, h6, h7, h8, h9⟩
  case angleDown =>
    exact ⟨h1, h2, le_max_left _ _, max_le (by norm_num) (by linarith),
      h5, h6, h7, h8, h9⟩
  case frictionUp =>
    refine ⟨h1, h2, h3, h4, ?_, min_le_left _ _, h7, h8, h9⟩
    exact le_min (by norm_num) (round2_nonneg _ (by norm_num; linarith))
  case frictionDown =>
    refine ⟨h1, h2, h3, h4, le_max_left _ _, ?_, h7, h8, h9⟩
    exact max_le (by norm_num) (round2_le_one _ (by norm_num; linarith))
  case resetBtn =>
    exact ⟨h1, h2, h3, h4, h5, h6, le_refl 0, le_refl 0, zero_le_one⟩
  case pauseBtn =>
    exact ⟨h1, h2, h3, h4, h5, h6, h7, h8, h9⟩

/-- A physics step preserves the state invariant. -/
theorem update_position_sinv (s : SimState) (h : SInv s) :
    SInv (update_position s) := by
  obtain ⟨h1, h2, h3, h4, h5, h6, h7, h8, h9⟩ := h
  rcases lt_or_le s.progress 1 with hp | hp
  · rw [update_position_of_lt s hp]
    have ha := accel_nonneg s (by linarith)
    have hv : 0 ≤ s.velocity + (calculate_forces s).2.2.2 * (1 / 60) := by positivity
    have hinc : 0 ≤ (s.velocity + (calculate_forces s).2.2.2 * (1 / 60)) *
        (1 / 60) / incline_length :=
      div_nonneg (by positivity) (le_of_lt incline_length_pos)
    exact ⟨h1, h2, h3, h4, h5, h6, hv,
      le_min (by linarith) (by norm_num), min_le_right _ _⟩
  · rw [update_position_of_ge s hp]
    exact ⟨h1, h2, h3, h4, h5, h6, le_refl 0, h8, h9⟩

/-- Draining a list of events preserves the state invariant. -/
theorem apply_events_sinv (evs : List Event) (st : LoopState) (h : SInv st.sim) :
    SInv (evs.foldl (fun s e => apply_event e s) st).sim := by
  induction evs generalizing st with
  | nil => exact h
  | cons e rest ih => exact ih _ (apply_event_sinv e st h)

/-- One full tick preserves the state invariant. -/
theorem tick_sinv (evs : List Event) (st : LoopState) (h : SInv st.sim) :
    SInv (tick evs st).sim := by
  unfold tick
  refine apply_events_sinv evs _ ?_
  split_ifs
  · exact h
  · exact update_position_sinv _ h

/-- Every reachable loop state satisfies the invariant. -/
theorem run_ticks_sinv (tss : List (List Event)) : SInv (run_ticks tss).sim := by
  unfold run_ticks
  have key : ∀ st : LoopState, SInv st.sim →
      SInv (tss.foldl (fun s evs => tick evs s) st).sim := by
    induction tss with
    | nil => exact fun st h => h
    | cons evs rest ih => exact fun st h => ih _ (tick_sinv evs st h)
  exact key init_loop init_sinv

/-- Velocity after a step from a state short of the bottom. -/
theorem update_position_velocity_of_lt (s : SimState) (h : s.progress < 1) :
    (update_position s).velocity
      = s.velocity + (calculate_forces s).2.2.2 * (1 / 60) := by
  rw [update_position_of_lt s h]

/-- Progress after a step from a state short of the bottom. -/
theorem update_position_progress_of_lt (s : SimState) (h : s.progress < 1) :
    (update_position s).progress
      = min (s.progress +
          (s.velocity + (calculate_forces s).2.2.2 * (1 / 60)) * (1 / 60) / incline_length) 1 := by
  rw [update_position_of_lt s h]

/-- A step from a reachable-looking state never decreases progress. -/
theorem update_position_progress_mono (s : SimState) (hm : 0 < s.mass)
    (hv : 0 ≤ s.velocity) (hp : s.progress ≤ 1) :
    s.progress ≤ (update_position s).progress := by
  rcases lt_or_le s.progress 1 with h | h
  · rw [update_position_progress_of_lt s h]
    have ha := accel_nonneg s hm
    have hinc : 0 ≤ (s.velocity + (calculate_forces s).2.2.2 * (1 / 60)) *
        (1 / 60) / incline_length :=
      div_nonneg (by positivity) (le_of_lt incline_length_pos)
    exact le_min (by linarith) hp
  · rw [update_position_of_ge s h]

/-- The loop body first runs the physics phase, then drains the events. -/
theorem tick_decompose (evs : List Event) (st : LoopState) :
    tick evs st = apply_events evs (step_phase st) := rfl

/-- Closed form for repeated clicks on the angle-up button. -/
theorem angle_up_iter (n : ℕ) (st : LoopState) (h : st.sim.angle ≤ 85) :
    (apply_events (List.replicate n Event.angleUp) st).sim.angle
      = min 85 (st.sim.angle + n) := by
  induction n generalizing st with
  | zero =>
    simp only [List.replicate, apply_events, List.foldl_nil, Nat.cast_zero, add_zero]
    exact (min_eq_right h).symm
  | succ n ih =>
    rw [List.replicate_succ]
    have hstep : apply_events (Event.angleUp :: List.replicate n Event.angleUp) st
        = apply_events (List.replicate n Event.angleUp) (apply_event Event.angleUp st) := rfl
    rw [hstep, ih _ (min_le_left _ _)]
    have ha : (apply_event Event.angleUp st).sim.angle = min 85 (st.sim.angle + 1) := rfl
    rw [ha]
    have hn : (0 : ℝ) ≤ n := Nat.cast_nonneg n
    rcases le_total (st.sim.angle + 1) 85 with hc | hc
    · rw [min_eq_right hc]
      push_cast
      ring_nf
    · rw [min_eq_left hc, min_eq_left (by linarith),
        min_eq_left (by push_cast; linarith)]

/-- Claim C1: `calculate_forces` returns exactly the tuple
`(normalForce, frictionForce, parallelForce, acceleration)` with
`weight = mass * 9.8`, `normalForce = weight * cos(angleRadians)`,
`parallelForce = weight * sin(angleRadians)`,
`frictionForce = friction * normalForce`, and
`acceleration = (parallelForce - frictionForce) / mass` when
`parallelForce - frictionForce > 0`, else `0`. -/
theorem calculate_forces_formula (s : SimState) :
    calculate_forces s =
      (s.mass * 9.8 * Real.cos (radians s.angle),
       s.friction * (s.mass * 9.8 * Real.cos (radians s.angle)),
       s.mass * 9.8 * Real.sin (radians s.angle),
       if s.mass * 9.8 * Real.sin (radians s.angle) -
            s.friction * (s.mass * 9.8 * Real.cos (radians s.angle)) > 0 then
         (s.mass * 9.8 * Real.sin (radians s.angle) -
            s.friction * (s.mass * 9.8 * Real.cos (radians s.angle))) / s.mass
       else 0) := rfl

/-- Claim C2: on a state with `progress < 1`, one call to `update_position`
computes the acceleration from the current parameters via `calculate_forces`,
sets the velocity to `velocity + acceleration * (1/60)`, sets the progress to
`min (progress + velocity * (1/60) / incline_length) 1` using the new
velocity, and recomputes the position by linear interpolation from
`incline_start` along the incline vector at the new progress, leaving mass,
angle and friction unchanged; on a state with `progress >= 1` it sets the
velocity to `0` and changes nothing else. -/
theorem update_position_spec (s : SimState) :
    (s.progress < 1 →
      (update_position s).velocity
          = s.velocity + (calculate_forces s).2.2.2 * (1 / 60) ∧
      (update_position s).progress
          = min (s.progress +
              (s.velocity + (calculate_forces s).2.2.2 * (1 / 60)) * (1 / 60) / incline_length) 1 ∧
      (update_position s).position_x
          = incline_start.1 + slope_x * (update_position s).progress ∧
      (update_position s).position_y
          = incline_start.2 + slope_y * (update_position s).progress ∧
      (update_position s).mass = s.mass ∧
      (update_position s).angle = s.angle ∧
      (update_position s).friction = s.friction) ∧
    (1 ≤ s.progress → update_position s = { s with velocity := 0 }) := by
  constructor
  · intro h
    rw [update_position_of_lt s h]
    exact ⟨rfl, rfl, rfl, rfl, rfl, rfl, rfl⟩
  · intro h
    exact update_position_of_ge s h

/-- Witness for C2: from the initial state moved to the bottom, a step only
zeroes the velocity. -/
theorem update_position_spec_witness :
    update_position { init with progress := 1 }
      = { init with progress := 1, velocity := 0 } :=
  (update_position_spec { init with progress := 1 }).2 (le_refl 1)

/-- Claim C3 (amended): under every sequence of ticks and input events the
angle stays in the CLOSED interval `[0, 85]`: it never becomes negative and
never exceeds 85 — but, contrary to the claim as stated, it can reach 85
exactly. -/
theorem angle_clamped (tss : List (List Event)) :
    0 ≤ (run_ticks tss).sim.angle ∧ (run_ticks tss).sim.angle ≤ 85 :=
  ⟨(run_ticks_sinv tss).2.2.1, (run_ticks_sinv tss).2.2.2.1⟩

/-- Counterexample to claim C3 as stated: 55 clicks on the angle-up button
reach `angle = 85`, so the angle is not confined to `[0, 85)`. -/
theorem angle_reaches_85 :
    (run_ticks [List.replicate 55 Event.angleUp]).sim.angle = 85 := by
  unfold run_ticks
  simp only [List.foldl_cons, List.foldl_nil]
  rw [tick_decompose]
  have hang : (step_phase init_loop).sim.angle = 30 := by
    have h1 : step_phase init_loop = { init_loop with sim := update_position init } := rfl
    rw [h1]
    exact update_position_angle init
  rw [angle_up_iter 55 _ (by rw [hang]; norm_num), hang]
  norm_num

/-- Claim C4 (amended): in each tick of the control loop the physics step
(performed only when the loop is not paused) happens FIRST, and only then
are the pending input events drained and applied, in order; the frame is
presented after both. An event arriving during a tick therefore affects the
physics only from the next tick on. -/
theorem tick_ordering (evs : List Event) (st : LoopState) :
    tick evs st = apply_events evs (step_phase st) := rfl

/-- Counterexample to claim C4 as stated: a pause click during a running,
frictionless tick does not suppress that tick's physics step. Under the
claimed ordering (events drained before the step) the velocity would stay
`0`; the code's tick leaves it at `4.9/60 = 49/600`. -/
theorem tick_ordering_counterexample :
    (tick_spec_order [Event.pauseBtn] c4_state).sim.velocity = 0 ∧
    (tick [Event.pauseBtn] c4_state).sim.velocity = 49 / 600 := by
  constructor
  · rfl
  · have h1 : (tick [Event.pauseBtn] c4_state).sim = update_position fless := rfl
    rw [h1]
    rw [update_position_velocity_of_lt fless
      (by simp [fless, init, reset_simulation])]
    rw [accel_friction_zero fless rfl rfl rfl]
    have h2 : fless.velocity = 0 := rfl
    rw [h2]
    norm_num

/-- Claim C5: once progress has reached 1, a further `update_position` call
keeps progress at 1 and forces velocity to 0, and every input event other
than reset leaves progress unchanged (so progress stays at 1 until a reset
is applied). -/
theorem progress_sticks_at_one (s : SimState) (st : LoopState) (e : Event)
    (hs : s.progress = 1) (hst : st.sim.progress = 1)
    (he : e ≠ Event.resetBtn) :
    (update_position s).progress = 1 ∧ (update_position s).velocity = 0 ∧
      (apply_event e st).sim.progress = 1 := by
  have h := update_position_of_ge s (le_of_eq hs.symm)
  refine ⟨?_, ?_, ?_⟩
  · rw [h]
    exact hs
  · rw [h]
  · cases e
    case resetBtn => exact absurd rfl he
    all_goals exact hst

/-- Witness for C5 at the initial state moved to the bottom, with a
mass-up click as the non-reset event. -/
theorem progress_sticks_at_one_witness :
    (update_position { init with progress := 1 }).progress = 1 ∧
      (update_position { init with progress := 1 }).velocity = 0 ∧
      (apply_event Event.massUp
        { sim := { init with progress := 1 }, paused := false }).sim.progress = 1 :=
  progress_sticks_at_one { init with progress := 1 }
    { sim := { init with progress := 1 }, paused := false }
    Event.massUp rfl rfl (by decide)

/-- Claim C6: from every reachable state (in particular the force model's
acceleration there is nonnegative), a further physics step never decreases
progress. -/
theorem progress_monotone (tss : List (List Event)) :
    (run_ticks tss).sim.progress
      ≤ (update_position (run_ticks tss).sim).progress := by
  obtain ⟨h1, -, -, -, -, -, h7, -, h9⟩ := run_ticks_sinv tss
  exact update_position_progress_mono _ (lt_of_lt_of_le one_pos h1) h7 h9

/-- Claim C7: for every prior state, `reset_simulation` yields progress 0
and velocity 0 and places the object at the linear interpolation of the
incline geometry at progress 0, namely `incline_start`. -/
theorem reset_simulation_spec (s : SimState) :
    (reset_simulation s).progress = 0 ∧ (reset_simulation s).velocity = 0 ∧
      (reset_simulation s).position_x = incline_start.1 + slope_x * 0 ∧
      (reset_simulation s).position_y = incline_start.2 + slope_y * 0 ∧
      (reset_simulation s).position_x = incline_start.1 ∧
      (reset_simulation s).position_y = incline_start.2 := by
  refine ⟨rfl, rfl, ?_, ?_, rfl, rfl⟩
  · show incline_start.1 = incline_start.1 + slope_x * 0
    ring
  · show incline_start.2 = incline_start.2 + slope_y * 0
    ring

/-- Claim C8: a mutator applied at its range boundary does not move the
parameter further (mass at 1 or 100, angle at 0 or 85, friction at 0 or 1),
and mass stays within `[1, 100]` and friction within `[0, 1]` under every
sequence of commands. -/
theorem mutator_boundaries :
    (∀ st : LoopState, st.sim.mass = 100 →
        (apply_event Event.massUp st).sim.mass = 100) ∧
    (∀ st : LoopState, st.sim.mass = 1 →
        (apply_event Event.massDown st).sim.mass = 1) ∧
    (∀ st : LoopState, st.sim.angle = 0 →
        (apply_event Event.angleDown st).sim.angle = 0) ∧
    (∀ st : LoopState, st.sim.angle = 85 →
        (apply_event Event.angleUp st).sim.angle = 85) ∧
    (∀ st : LoopState, st.sim.friction = 0 →
        (apply_event Event.frictionDown st).sim.friction = 0) ∧
    (∀ st : LoopState, st.sim.friction = 1 →
        (apply_event Event.frictionUp st).sim.friction = 1) ∧
    (∀ tss : List (List Event),
        1 ≤ (run_ticks tss).sim.mass ∧ (run_ticks tss).sim.mass ≤ 100 ∧
        0 ≤ (run_ticks tss).sim.friction ∧ (run_ticks tss).sim.friction ≤ 1) := by
  refine ⟨?_, ?_, ?_, ?_, ?_, ?_, ?_⟩
  · intro st h
    show min (st.sim.mass + 1) 100 = 100
    rw [h]
    exact min_eq_right (by norm_num)
  · intro st h
    show max 1 (st.sim.mass - 1) = 1
    rw [h]
    exact max_eq_left (by norm_num)
  · intro st h
    show max 0 (st.sim.angle - 1) = 0
    rw [h]
    exact max_eq_left (by norm_num)
  · intro st h
    show min 85 (st.sim.angle + 1) = 85
    rw [h]
    exact min_eq_left (by norm_num)
  · intro st h
    show max 0 (round2 (st.sim.friction - 0.05)) = 0
    rw [h, show (0 : ℝ) - 0.05 = ((-5 : ℤ) : ℝ) / 100 by norm_num,
      round2_int_div]
    exact max_eq_left (by norm_num)
  · intro st h
    show min 1 (round2 (st.sim.friction + 0.05)) = 1
    rw [h, show (1 : ℝ) + 0.05 = ((105 : ℤ) : ℝ) / 100 by norm_num,
      round2_int_div]
    exact min_eq_left (by norm_num)
  · intro tss
    obtain ⟨h1, h2, -, -, h5, h6, -, -, -⟩ := run_ticks_sinv tss
    exact ⟨h1, h2, h5, h6⟩

/-- Witness for C8: a mass-up click at `mass = 100` leaves the mass at 100. -/
theorem mutator_boundaries_witness :
    (apply_event Event.massUp
      { sim := { init with mass := 100 }, paused := false }).sim.mass = 100 :=
  mutator_boundaries.1 { sim := { init with mass := 100 }, paused := false } rfl

/-- Claim C9: in every reachable state the mass is at least 1, so the
divisor in the acceleration computation of `calculate_forces` is strictly
positive, never zero or negative. -/
theorem mass_positive (tss : List (List Event)) :
    1 ≤ (run_ticks tss).sim.mass ∧ 0 < (run_ticks tss).sim.mass := by
  have h := (run_ticks_sinv tss).1
  exact ⟨h, lt_of_lt_of_le one_pos h⟩

/-- Claim C10: on the step entered with `progress < 1`, the velocity keeps
its just-incremented value (it is zeroed only by a step entered with
`progress >= 1`, or by reset); concretely, one step from `nearBottom`
clamps progress to exactly 1 while the velocity stays positive. -/
theorem clamp_keeps_velocity :
    (∀ s : SimState, s.progress < 1 →
        (update_position s).velocity
          = s.velocity + (calculate_forces s).2.2.2 * (1 / 60)) ∧
    (∀ s : SimState, 1 ≤ s.progress → (update_position s).velocity = 0) ∧
    (update_position nearBottom).progress = 1 ∧
    0 < (update_position nearBottom).velocity := by
  have hlt : nearBottom.progress < 1 := by
    simp [nearBottom, init, reset_simulation]
    norm_num
  refine ⟨fun s h => update_position_velocity_of_lt s h,
    fun s h => by rw [update_position_of_ge s h], ?_, ?_⟩
  · rw [update_position_progress_of_lt nearBottom hlt,
      accel_friction_zero nearBottom rfl rfl rfl]
    have h99 : nearBottom.progress = 99 / 100 := rfl
    have h1000 : nearBottom.velocity = 1000 := rfl
    rw [h99, h1000]
    have hL := incline_length_le_1000
    have hLpos := incline_length_pos
    have hX : (1 : ℝ) / 100
        ≤ (1000 + 49 / 10 * (1 / 60)) * (1 / 60) / incline_length := by
      rw [div_le_div_iff₀ (by norm_num) hLpos]
      linarith
    exact min_eq_right (by linarith)
  · rw [update_position_velocity_of_lt nearBottom hlt,
      accel_friction_zero nearBottom rfl rfl rfl]
    have h1000 : nearBottom.velocity = 1000 := rfl
    rw [h1000]
    norm_num

/-- Witness for C10: the velocity equation of the clamping step evaluated on
the frictionless start state. -/
theorem clamp_keeps_velocity_witness :
    (update_position fless).velocity = 49 / 600 := by
  have h := clamp_keeps_velocity.1 fless (by simp [fless, init, reset_simulation])
  rw [h, accel_friction_zero fless rfl rfl rfl]
  have h0 : fless.velocity = 0 := rfl
  rw [h0]
  norm_num

end Incline
